import Mathlib

/-!
Shallow embedding of `interpreter.py`, a line-oriented mini-language
interpreter: lexer, recursive-descent parser, evaluator over a mutable
environment, and the per-line runner.

Modelling conventions:
* Python floats are modelled as rationals (`ℚ`); every numeric literal and
  operation exercised here is exact, so no rounding behaviour is lost.
* Python's `None` result of `evaluate` (for assignments and print) is the
  explicit `Value.vnone`.
* Exceptions are modelled with `Except Err`; the evaluator threads the
  environment and the list of printed values through every call, so state
  mutated before a failure is visible exactly as in the source.
* The recursive-descent parser is given explicit fuel; `fuel_for` is always
  large enough for the line being parsed, and concrete runs evaluate by
  `decide`/`rfl`.
* In the source the AST is an untyped tuple/scalar encoding in which a string
  literal and an identifier are both bare Python strings; `Ast.str` embeds
  both, exactly as in `Parser.factor` (lines 236-248 of the source).
-/

namespace Interp

/-- Runtime values of the interpreted language: Python floats (as `ℚ`),
Python ints (as `ℤ` — number literals are always floats, but arithmetic on
booleans yields ints, e.g. `True + True` is the int 2), strings, booleans,
and Python's `None` (the result of `assign`/`print`). -/
inductive Value where
  | num (q : ℚ)
  | int (n : ℤ)
  | str (s : String)
  | bool (b : Bool)
  | vnone
  deriving DecidableEq, Repr

/-- Python treats `bool` as an integer in arithmetic: `True` is 1, `False`
is 0. `toNum` gives the numeric reading of a value, when it has one. -/
def toNum : Value → Option ℚ
  | .num q => some q
  | .int n => some (n : ℚ)
  | .bool b => some (if b then 1 else 0)
  | _ => none

/-- The int-like reading of a value: Python ints and booleans are ints,
floats are not. Sequence repetition and int-resulting arithmetic use it. -/
def toInt : Value → Option ℤ
  | .int n => some n
  | .bool b => some (if b then 1 else 0)
  | _ => none

/-- Python truthiness: a number is truthy iff nonzero, a string iff
non-empty, a boolean is itself, `None` is falsy. -/
def truthy : Value → Bool
  | .num q => decide (q ≠ 0)
  | .int n => decide (n ≠ 0)
  | .str s => decide (s ≠ ("" : String))
  | .bool b => b
  | .vnone => false

/-- Kind name of a value, used in type-mismatch error payloads. -/
def Value.kind : Value → String
  | .num _ => ("Number")
  | .int _ => ("Integer")
  | .str _ => ("String")
  | .bool _ => ("Boolean")
  | .vnone => ("NoneType")

/-- Token kinds, mirroring the token-type constants of the source. -/
inductive TokType where
  | tInteger | tString | tTrue | tFalse | tIdent
  | tAnd | tOr | tPrint | tNot
  | tPlus | tMinus | tMul | tDiv | tLparen | tRparen
  | tEq | tNeq | tLt | tGt | tLe | tGe | tAssign | tEof
  deriving DecidableEq, Repr

/-- Tokens, mirroring the `Token(type, value)` pairs of the source. -/
inductive Token where
  | integer (q : ℚ)
  | strTok (s : String)
  | boolTrue
  | boolFalse
  | ident (name : String)
  | kwAnd | kwOr | kwPrint | bangTok
  | plusTok | minusTok | mulTok | divTok | lparenTok | rparenTok
  | eqTok | neqTok | ltTok | gtTok | leTok | geTok | assignTok
  | eofTok
  deriving DecidableEq, Repr

/-- The `type` field of a token. -/
def Token.type : Token → TokType
  | .integer _ => .tInteger
  | .strTok _ => .tString
  | .boolTrue => .tTrue
  | .boolFalse => .tFalse
  | .ident _ => .tIdent
  | .kwAnd => .tAnd
  | .kwOr => .tOr
  | .kwPrint => .tPrint
  | .bangTok => .tNot
  | .plusTok => .tPlus
  | .minusTok => .tMinus
  | .mulTok => .tMul
  | .divTok => .tDiv
  | .lparenTok => .tLparen
  | .rparenTok => .tRparen
  | .eqTok => .tEq
  | .neqTok => .tNeq
  | .ltTok => .tLt
  | .gtTok => .tGt
  | .leTok => .tLe
  | .geTok => .tGe
  | .assignTok => .tAssign
  | .eofTok => .tEof

/-- The `value` field of an operator token, used by the parser when it
builds a binary node `(token.value, left, right)`. -/
def opvalue : Token → String
  | .plusTok => ("+")
  | .minusTok => ("-")
  | .mulTok => ("*")
  | .divTok => ("/")
  | .eqTok => ("==")
  | .neqTok => ("!=")
  | .ltTok => ("<")
  | .gtTok => (">")
  | .leTok => ("<=")
  | .geTok => (">=")
  | .kwAnd => ("and")
  | .kwOr => ("or")
  | _ => ("")

/-- Error taxonomy: lexer errors, parser errors, runtime errors, plus the
artificial `outOfFuel` used only when the parser's fuel is exhausted (never
reached for `fuel_for`-sized fuel on the lines considered here). -/
inductive Err where
  | invalidCharacter
  | unterminatedString
  | invalidNumber
  | expectedToken (expected : TokType) (found : Token)
  | invalidAssignment (name : String)
  | unexpectedToken (found : Token)
  | divisionByZero
  | typeMismatch (op : String) (lk rk : String)
  | outOfFuel
  deriving DecidableEq, Repr

/-- Numeric value of a run of decimal digits. -/
def digitsVal (cs : List Char) : ℕ :=
  cs.foldl (fun a c => a * 10 + (c.toNat - 48)) 0

/-- Splitting of a character run at the `.` characters. -/
def splitOnDot : List Char → List (List Char)
  | [] => [[]]
  | c :: cs =>
    let r := splitOnDot cs
    if c = '.' then [] :: r
    else
      match r with
      | [] => [[c]]
      | p :: ps => (c :: p) :: ps

/-- Conversion of a scanned digits-and-dots run to a rational, mirroring
Python's `float()` on such strings: at most one dot; `"1."` is 1, `".5"`
would be 1/2; two or more dots raise `ValueError` (`none` here). -/
def strToRat (cs : List Char) : Option ℚ :=
  match splitOnDot cs with
  | [intPart] =>
      if intPart = ([] : List Char) then none else some (digitsVal intPart)
  | [intPart, fracPart] =>
      some ((digitsVal intPart : ℚ) +
        (digitsVal fracPart : ℚ) / (10 ^ fracPart.length))
  | _ => none

/-- `Lexer.identifier`: a scanned alphanumeric word is a keyword token when
it matches `true`/`false`/`and`/`or`/`print`, else an identifier token. -/
def keywordOrIdent (s : String) : Token :=
  if s = ("true" : String) then .boolTrue
  else if s = ("false" : String) then .boolFalse
  else if s = ("and" : String) then .kwAnd
  else if s = ("or" : String) then .kwOr
  else if s = ("print" : String) then .kwPrint
  else .ident s

/-- `Lexer.get_next_token`: skip whitespace, then scan one token from the
remaining characters, returning the token and the rest of the input. -/
def get_next_token (input : List Char) : Except Err (Token × List Char) :=
  let inp := input.dropWhile Char.isWhitespace
  match inp with
  | [] => .ok (.eofTok, [])
  | c :: cs =>
    if c.isDigit then
      let run := inp.takeWhile (fun ch => ch.isDigit || ch = '.')
      let rest := inp.dropWhile (fun ch => ch.isDigit || ch = '.')
      match strToRat run with
      | some q => .ok (.integer q, rest)
      | none => .error .invalidNumber
    else if c.isAlpha then
      let word := inp.takeWhile Char.isAlphanum
      let rest := inp.dropWhile Char.isAlphanum
      .ok (keywordOrIdent (String.mk word), rest)
    else if c = '"' then
      let content := cs.takeWhile (fun ch => ch ≠ '"')
      let rest := cs.dropWhile (fun ch => ch ≠ '"')
      match rest with
      | [] => .error .unterminatedString
      | _ :: rest' => .ok (.strTok (String.mk content), rest')
    else if c = '=' then
      match cs with
      | '=' :: rest => .ok (.eqTok, rest)
      | _ => .ok (.assignTok, cs)
    else if c = '!' then
      match cs with
      | '=' :: rest => .ok (.neqTok, rest)
      | _ => .ok (.bangTok, cs)
    else if c = '<' then
      match cs with
      | '=' :: rest => .ok (.leTok, rest)
      | _ => .ok (.ltTok, cs)
    else if c = '>' then
      match cs with
      | '=' :: rest => .ok (.geTok, rest)
      | _ => .ok (.gtTok, cs)
    else if c = '+' then .ok (.plusTok, cs)
    else if c = '-' then .ok (.minusTok, cs)
    else if c = '*' then .ok (.mulTok, cs)
    else if c = '/' then .ok (.divTok, cs)
    else if c = '(' then .ok (.lparenTok, cs)
    else if c = ')' then .ok (.rparenTok, cs)
    else .error .invalidCharacter

/-- AST nodes. In the source these are Python scalars and tuples: a float,
a bare string (a string literal or an identifier — the two use one and the
same representation), a boolean, and the tuples `('neg', e)`, `('not', e)`,
`('assign', name, e)`, `('print', e)`, `(op_string, l, r)`. -/
inductive Ast where
  | num (q : ℚ)
  | str (s : String)
  | bool (b : Bool)
  | neg (a : Ast)
  | lnot (a : Ast)
  | assign (name : String) (value : Ast)
  | print (value : Ast)
  | binop (op : String) (l r : Ast)
  deriving DecidableEq, Repr

/-- Parser state: the current token and the lexer's remaining characters. -/
abbrev PState := Token × List Char

/-- `Parser.eat`: check the current token's type and pull the next token. -/
def eat (tt : TokType) (s : PState) : Except Err PState :=
  if s.1.type = tt then
    match get_next_token s.2 with
    | .ok (t, r) => .ok (t, r)
    | .error e => .error e
  else .error (.expectedToken tt s.1)

/-- The `while current_token.type in ops` loop shared by all six binary
precedence levels: as long as the current token is one of `ops`, eat it,
parse one operand with `sub`, and fold a left-nested `binop`. -/
def pBinLoop (sub : PState → Except Err (Ast × PState)) :
    Nat → List TokType → Ast → PState → Except Err (Ast × PState)
  | 0, _, _, _ => .error .outOfFuel
  | n + 1, ops, a, s =>
    if s.1.type ∈ ops then
      match eat s.1.type s with
      | .error e => .error e
      | .ok s' =>
        match sub s' with
        | .error e => .error e
        | .ok (b, s'') => pBinLoop sub n ops (.binop (opvalue s.1) a b) s''
    else .ok (a, s)

/-- `Parser.factor`; `pe` is the `expr` entry point used inside parens. -/
def factor (pe : PState → Except Err (Ast × PState)) :
    Nat → PState → Except Err (Ast × PState)
  | 0, _ => .error .outOfFuel
  | n + 1, s =>
    match s.1 with
    | .minusTok => do
        let s' ← eat .tMinus s
        let (a, s'') ← factor pe n s'
        return (.neg a, s'')
    | .bangTok => do
        let s' ← eat .tNot s
        let (a, s'') ← factor pe n s'
        return (.lnot a, s'')
    | .integer q => do
        let s' ← eat .tInteger s
        return (.num q, s')
    | .strTok v => do
        let s' ← eat .tString s
        return (.str v, s')
    | .boolTrue => do
        let s' ← eat .tTrue s
        return (.bool true, s')
    | .boolFalse => do
        let s' ← eat .tFalse s
        return (.bool false, s')
    | .ident name => do
        let s' ← eat .tIdent s
        return (.str name, s')
    | .lparenTok => do
        let s' ← eat .tLparen s
        let (a, s'') ← pe s'
        let s3 ← eat .tRparen s''
        return (a, s3)
    | t => .error (.unexpectedToken t)

/-- `Parser.term`. -/
def term (pe : PState → Except Err (Ast × PState)) (n : Nat) (s : PState) :
    Except Err (Ast × PState) := do
  let (a, s') ← factor pe n s
  pBinLoop (factor pe n) n [.tMul, .tDiv] a s'

/-- `Parser.additive`. -/
def additive (pe : PState → Except Err (Ast × PState)) (n : Nat) (s : PState) :
    Except Err (Ast × PState) := do
  let (a, s') ← term pe n s
  pBinLoop (term pe n) n [.tPlus, .tMinus] a s'

/-- `Parser.comparison`. -/
def comparison (pe : PState → Except Err (Ast × PState)) (n : Nat) (s : PState) :
    Except Err (Ast × PState) := do
  let (a, s') ← additive pe n s
  pBinLoop (additive pe n) n [.tLt, .tGt, .tLe, .tGe] a s'

/-- `Parser.equality`. -/
def equality (pe : PState → Except Err (Ast × PState)) (n : Nat) (s : PState) :
    Except Err (Ast × PState) := do
  let (a, s') ← comparison pe n s
  pBinLoop (comparison pe n) n [.tEq, .tNeq] a s'

/-- `Parser.logic_and`. -/
def logic_and (pe : PState → Except Err (Ast × PState)) (n : Nat) (s : PState) :
    Except Err (Ast × PState) := do
  let (a, s') ← equality pe n s
  pBinLoop (equality pe n) n [.tAnd] a s'

/-- `Parser.logic_or`. -/
def logic_or (pe : PState → Except Err (Ast × PState)) (n : Nat) (s : PState) :
    Except Err (Ast × PState) := do
  let (a, s') ← logic_and pe n s
  pBinLoop (logic_and pe n) n [.tOr] a s'

/-- `Parser.expr`, with explicit fuel to tie the `factor → expr` knot. -/
def expr : Nat → PState → Except Err (Ast × PState)
  | 0, _ => .error .outOfFuel
  | n + 1, s => logic_or (expr n) n s

/-- `Parser.parse`: a `print` statement, an assignment (an identifier at the
start of the line MUST be followed by `=`, otherwise `Invalid assignment` is
raised — there is no fall-through to `expr` for identifiers), or a bare
expression. -/
def parse (n : Nat) (s : PState) : Except Err (Ast × PState) :=
  match s.1 with
  | .kwPrint => do
      let s' ← eat .tPrint s
      let (e, s'') ← expr n s'
      return (.print e, s'')
  | .ident name => do
      let s' ← eat .tIdent s
      match s'.1.type with
      | .tAssign => do
          let s'' ← eat .tAssign s'
          let (v, s3) ← expr n s''
          return (.assign name v, s3)
      | _ => .error (.invalidAssignment name)
  | _ => expr n s

/-- Fuel that is always sufficient for one line: the parser consumes fuel
only on loop iterations, unary nesting and parenthesis nesting, each of
which is bounded by the number of characters. -/
def fuel_for (line : String) : Nat := 20 * (line.length + 2)

/-- One line through lexer construction and `Parser.parse`; the final
parser state is dropped, trailing tokens are NOT checked. -/
def parse_line (line : String) : Except Err Ast :=
  match get_next_token line.data with
  | .error e => .error e
  | .ok (t, rest) =>
    match parse (fuel_for line) (t, rest) with
    | .error e => .error e
    | .ok (a, _) => .ok a

/-- The variable environment: `global_env`, a name → value mapping. -/
abbrev Env := List (String × Value)

/-- Dictionary lookup. -/
def envLookup (n : String) (env : Env) : Option Value := env.lookup n

/-- Dictionary store, overwriting any previous binding of the name. -/
def envSet (n : String) (v : Value) (env : Env) : Env :=
  (n, v) :: env.filter (fun p => p.1 ≠ n)

/-- Python `==` on the value domain: numbers and booleans compare
numerically (`False == 0` is true), strings compare as strings, `None`
equals only itself, and any other cross-kind comparison is `False`. -/
def pyEq : Value → Value → Bool
  | .str a, .str b => a == b
  | .vnone, .vnone => true
  | a, b =>
    match toNum a, toNum b with
    | some x, some y => x == y
    | _, _ => false

/-- Python `+`: string concatenation; int addition when both operands are
int-like (ints/booleans); float addition when at least one is a float; a
`TypeError` on any other kind combination. -/
def pyAdd (a b : Value) : Except Err Value :=
  match a, b with
  | .str x, .str y => .ok (.str (x ++ y))
  | _, _ =>
    match toInt a, toInt b with
    | some x, some y => .ok (.int (x + y))
    | _, _ =>
      match toNum a, toNum b with
      | some x, some y => .ok (.num (x + y))
      | _, _ => .error (.typeMismatch ("+") a.kind b.kind)

/-- Python `-` (binary): numeric only, int result on int-like operands. -/
def pySub (a b : Value) : Except Err Value :=
  match toInt a, toInt b with
  | some x, some y => .ok (.int (x - y))
  | _, _ =>
    match toNum a, toNum b with
    | some x, some y => .ok (.num (x - y))
    | _, _ => .error (.typeMismatch ("-") a.kind b.kind)

/-- Python sequence repetition `s * n`: `n` copies of `s`, none when
`n ≤ 0`. -/
def strRepeat (s : String) (n : ℤ) : String :=
  String.mk ((List.replicate n.toNat s.data).flatten)

/-- Python `*`: a string times an int-like value (an int or a boolean) is
sequence repetition — reachable because boolean arithmetic yields ints, as
in `"a" * (true + true)`; a string times a float or another string is a
`TypeError`; otherwise the numeric product, int when both operands are
int-like. -/
def pyMul (a b : Value) : Except Err Value :=
  match a, b with
  | .str x, _ =>
    match toInt b with
    | some n => .ok (.str (strRepeat x n))
    | none => .error (.typeMismatch ("*") (Value.str x).kind b.kind)
  | _, .str y =>
    match toInt a with
    | some n => .ok (.str (strRepeat y n))
    | none => .error (.typeMismatch ("*") a.kind (Value.str y).kind)
  | _, _ =>
    match toInt a, toInt b with
    | some x, some y => .ok (.int (x * y))
    | _, _ =>
      match toNum a, toNum b with
      | some x, some y => .ok (.num (x * y))
      | _, _ => .error (.typeMismatch ("*") a.kind b.kind)

/-- Python `/` once the divisor is known nonzero: numeric only. -/
def pyDiv (a b : Value) : Except Err Value :=
  match toNum a, toNum b with
  | some x, some y => .ok (.num (x / y))
  | _, _ => .error (.typeMismatch ("/") a.kind b.kind)

/-- Python `<`: numeric order on numbers/booleans, lexicographic order on
strings, `TypeError` otherwise. -/
def pyLt (a b : Value) : Except Err Bool
  := match a, b with
  | .str x, .str y => .ok (decide (x < y))
  | _, _ =>
    match toNum a, toNum b with
    | some x, some y => .ok (decide (x < y))
    | _, _ => .error (.typeMismatch ("<") a.kind b.kind)

/-- Python `<=`. -/
def pyLe (a b : Value) : Except Err Bool
  := match a, b with
  | .str x, .str y => .ok (decide (x ≤ y))
  | _, _ =>
    match toNum a, toNum b with
    | some x, some y => .ok (decide (x ≤ y))
    | _, _ => .error (.typeMismatch ("<=") a.kind b.kind)

/-- Python `>`. -/
def pyGt (a b : Value) : Except Err Bool
  := match a, b with
  | .str x, .str y => .ok (decide (y < x))
  | _, _ =>
    match toNum a, toNum b with
    | some x, some y => .ok (decide (y < x))
    | _, _ => .error (.typeMismatch (">") a.kind b.kind)

/-- Python `>=`. -/
def pyGe (a b : Value) : Except Err Bool
  := match a, b with
  | .str x, .str y => .ok (decide (y ≤ x))
  | _, _ =>
    match toNum a, toNum b with
    | some x, some y => .ok (decide (y ≤ x))
    | _, _ => .error (.typeMismatch (">=") a.kind b.kind)

/-- Python unary `-`: numeric negation; ints and booleans negate to ints,
floats to floats. -/
def pyNeg (v : Value) : Except Err Value :=
  match v with
  | .num q => .ok (.num (-q))
  | _ =>
    match toInt v with
    | some n => .ok (.int (-n))
    | none => .error (.typeMismatch ("neg") v.kind v.kind)

/-- The operator dispatch of `evaluate` (source lines 280-293), applied to
the two already-evaluated operand values. The division arm checks
`rval == 0` (Python `==`, so `False` counts as zero) BEFORE dividing; the
`and`/`or` arms select one of the two original values by truthiness; an
unknown operator string falls off the end of the `if` chain and yields
Python `None`. -/
def applyBin (op : String) (l r : Value) : Except Err Value :=
  if op = ("+" : String) then pyAdd l r
  else if op = ("-" : String) then pySub l r
  else if op = ("*" : String) then pyMul l r
  else if op = ("/" : String) then
    if pyEq r (.num 0) then .error .divisionByZero else pyDiv l r
  else if op = ("==" : String) then .ok (.bool (pyEq l r))
  else if op = ("!=" : String) then .ok (.bool (!pyEq l r))
  else if op = ("<" : String) then (pyLt l r).map Value.bool
  else if op = (">" : String) then (pyGt l r).map Value.bool
  else if op = ("<=" : String) then (pyLe l r).map Value.bool
  else if op = (">=" : String) then (pyGe l r).map Value.bool
  else if op = ("and" : String) then .ok (if truthy l then r else l)
  else if op = ("or" : String) then .ok (if truthy l then l else r)
  else .ok .vnone

/-- `evaluate(node)` with the global environment and the print stream made
explicit: the result is the returned value (or error), the environment
after the call, and the list of values printed during the call. A bare
string node is looked up in the environment and falls back to itself — in
the source a string literal and an identifier are the same thing. Binary
nodes evaluate the left operand, then the right operand, and only then
dispatch on the operator. -/
def evaluate : Ast → Env → Except Err Value × Env × List Value
  | .num q, env => (.ok (.num q), env, [])
  | .bool b, env => (.ok (.bool b), env, [])
  | .str s, env =>
    match envLookup s env with
    | some v => (.ok v, env, [])
    | none => (.ok (.str s), env, [])
  | .neg a, env =>
    match evaluate a env with
    | (.error e, env', out) => (.error e, env', out)
    | (.ok v, env', out) =>
      match pyNeg v with
      | .ok v' => (.ok v', env', out)
      | .error e => (.error e, env', out)
  | .lnot a, env =>
    match evaluate a env with
    | (.error e, env', out) => (.error e, env', out)
    | (.ok v, env', out) => (.ok (.bool (!truthy v)), env', out)
  | .assign n e, env =>
    match evaluate e env with
    | (.error err, env', out) => (.error err, env', out)
    | (.ok v, env', out) => (.ok .vnone, envSet n v env', out)
  | .print e, env =>
    match evaluate e env with
    | (.error err, env', out) => (.error err, env', out)
    | (.ok v, env', out) => (.ok .vnone, env', out ++ [v])
  | .binop op l r, env =>
    match evaluate l env with
    | (.error e, env1, out1) => (.error e, env1, out1)
    | (.ok lv, env1, out1) =>
      match evaluate r env1 with
      | (.error e, env2, out2) => (.error e, env2, out1 ++ out2)
      | (.ok rv, env2, out2) =>
        match applyBin op lv rv with
        | .ok v => (.ok v, env2, out1 ++ out2)
        | .error e => (.error e, env2, out1 ++ out2)

/-- One observable output line of `run_file`: a value written by `print`,
the `<line> = <value>` echo of a bare expression, or an error report. -/
inductive OutLine where
  | printed (v : Value)
  | echo (line : String) (v : Value)
  | errorLine (line : String) (e : Err)
  deriving DecidableEq, Repr

/-- The body of `run_file`'s loop for one (already stripped, non-blank)
line: lex and parse, evaluate, echo a non-`None` result, and turn any error
into an error report for this line. -/
def process_line (line : String) (env : Env) : Env × List OutLine :=
  match parse_line line with
  | .error e => (env, [.errorLine line e])
  | .ok tree =>
    match evaluate tree env with
    | (.error e, env', out) =>
        (env', out.map OutLine.printed ++ [.errorLine line e])
    | (.ok v, env', out) =>
      match v with
      | .vnone => (env', out.map OutLine.printed)
      | v' => (env', out.map OutLine.printed ++ [.echo line v'])

/-- Python's `str.strip()`: leading and trailing whitespace removed. -/
def strip (s : String) : String :=
  String.mk (((s.data.dropWhile Char.isWhitespace).reverse.dropWhile
    Char.isWhitespace).reverse)

/-- `run_file`: strip each line, skip blank lines, and process the rest in
order against the shared environment, concatenating their outputs. -/
def run_file : List String → Env → Env × List OutLine
  | [], env => (env, [])
  | l :: ls, env =>
    let t := strip l
    if t = ("" : String) then run_file ls env
    else
      let (env', o) := process_line t env
      let (env'', os) := run_file ls env'
      (env'', o ++ os)

/-- An AST with no `assign` and no `print` node anywhere: the shape of
everything produced by the expression levels of the parser. -/
def noStmt : Ast → Bool
  | .num _ => true
  | .str _ => true
  | .bool _ => true
  | .neg a => noStmt a
  | .lnot a => noStmt a
  | .assign _ _ => false
  | .print _ => false
  | .binop _ l r => noStmt l && noStmt r

/-- Evaluating a statement-free AST never touches the environment and
never prints: the result triple keeps the input environment and an empty
print stream, whatever the value or error. -/
theorem evaluate_noStmt (a : Ast) : ∀ env : Env, noStmt a = true →
    ∃ res : Except Err Value, evaluate a env = (res, env, ([] : List Value)) := by
  induction a with
  | num q => intro env _; exact ⟨.ok (.num q), rfl⟩
  | str s =>
      intro env _
      cases h : envLookup s env with
      | none => exact ⟨.ok (.str s), by simp [evaluate, h]⟩
      | some v => exact ⟨.ok v, by simp [evaluate, h]⟩
  | bool b => intro env _; exact ⟨.ok (.bool b), rfl⟩
  | neg a ih =>
      intro env hn
      simp only [noStmt] at hn
      obtain ⟨res, h⟩ := ih env hn
      cases res with
      | error e => exact ⟨.error e, by simp [evaluate, h]⟩
      | ok v =>
          cases hv : pyNeg v with
          | error e => exact ⟨.error e, by simp [evaluate, h, hv]⟩
          | ok v' => exact ⟨.ok v', by simp [evaluate, h, hv]⟩
  | lnot a ih =>
      intro env hn
      simp only [noStmt] at hn
      obtain ⟨res, h⟩ := ih env hn
      cases res with
      | error e => exact ⟨.error e, by simp [evaluate, h]⟩
      | ok v => exact ⟨.ok (.bool (!truthy v)), by simp [evaluate, h]⟩
  | assign n e ih => intro env hn; simp [noStmt] at hn
  | print e ih => intro env hn; simp [noStmt] at hn
  | binop op l r ihl ihr =>
      intro env hn
      simp only [noStmt, Bool.and_eq_true] at hn
      obtain ⟨hl, hr⟩ := hn
      obtain ⟨res1, h1⟩ := ihl env hl
      cases res1 with
      | error e => exact ⟨.error e, by simp [evaluate, h1]⟩
      | ok lv =>
          obtain ⟨res2, h2⟩ := ihr env hr
          cases res2 with
          | error e => exact ⟨.error e, by simp [evaluate, h1, h2]⟩
          | ok rv =>
              cases hv : applyBin op lv rv with
              | error e => exact ⟨.error e, by simp [evaluate, h1, h2, hv]⟩
              | ok v => exact ⟨.ok v, by simp [evaluate, h1, h2, hv]⟩

/-- The binary-operator loop preserves statement-freeness: if the seed and
every operand parsed by `sub` are statement-free, so is the result. -/
theorem pBinLoop_noStmt (sub : PState → Except Err (Ast × PState))
    (hsub : ∀ s a s', sub s = .ok (a, s') → noStmt a = true) :
    ∀ (n : Nat) (ops : List TokType) (a0 : Ast) (s : PState) (a : Ast) (s' : PState),
      noStmt a0 = true → pBinLoop sub n ops a0 s = .ok (a, s') → noStmt a = true := by
  intro n
  induction n with
  | zero => intro ops a0 s a s' _ h; simp [pBinLoop] at h
  | succ n ih =>
      intro ops a0 s a s' h0 h
      simp only [pBinLoop] at h
      by_cases hc : s.1.type ∈ ops
      · rw [if_pos hc] at h
        cases he : eat s.1.type s with
        | error e => rw [he] at h; simp at h
        | ok s1 =>
            rw [he] at h
            dsimp only at h
            cases hs : sub s1 with
            | error e => rw [hs] at h; simp at h
            | ok bs =>
                rw [hs] at h
                dsimp only at h
                obtain ⟨b, s2⟩ := bs
                refine ih ops (.binop (opvalue s.1) a0 b) s2 a s' ?_ h
                simp only [noStmt, Bool.and_eq_true]
                exact ⟨h0, hsub s1 b s2 hs⟩
      · rw [if_neg hc] at h
        obtain ⟨h1, _⟩ := Prod.mk.injEq _ _ _ _ ▸ Except.ok.injEq _ _ ▸ h
        exact h1 ▸ h0

/-- `factor` only builds statement-free ASTs, provided the expression
entry point it is handed does the same. -/
theorem factor_noStmt (pe : PState → Except Err (Ast × PState))
    (hpe : ∀ s a s', pe s = .ok (a, s') → noStmt a = true) :
    ∀ (n : Nat) (s : PState) (a : Ast) (s' : PState),
      factor pe n s = .ok (a, s') → noStmt a = true := by
  intro n
  induction n with
  | zero => intro s a s' h; simp [factor] at h
  | succ n ih =>
      intro s a s' h
      simp only [factor] at h
      cases htok : s.1 with
      | minusTok =>
          rw [htok] at h; dsimp only at h
          cases he : eat .tMinus s with
          | error e => rw [he] at h; simp [bind, Except.bind] at h
          | ok s1 =>
              rw [he] at h
              simp only [bind, Except.bind] at h
              cases hf : factor pe n s1 with
              | error e => rw [hf] at h; simp at h
              | ok bs =>
                  rw [hf] at h; dsimp only at h
                  obtain ⟨b, s2⟩ := bs
                  simp only [pure, Except.pure, Except.ok.injEq, Prod.mk.injEq] at h
                  obtain ⟨h1, _⟩ := h
                  subst h1
                  simpa [noStmt] using ih s1 b s2 hf
      | bangTok =>
          rw [htok] at h; dsimp only at h
          cases he : eat .tNot s with
          | error e => rw [he] at h; simp [bind, Except.bind] at h
          | ok s1 =>
              rw [he] at h
              simp only [bind, Except.bind] at h
              cases hf : factor pe n s1 with
              | error e => rw [hf] at h; simp at h
              | ok bs =>
                  rw [hf] at h; dsimp only at h
                  obtain ⟨b, s2⟩ := bs
                  simp only [pure, Except.pure, Except.ok.injEq, Prod.mk.injEq] at h
                  obtain ⟨h1, _⟩ := h
                  subst h1
                  simpa [noStmt] using ih s1 b s2 hf
      | integer q =>
          rw [htok] at h; dsimp only at h
          cases he : eat .tInteger s with
          | error e => rw [he] at h; simp [bind, Except.bind] at h
          | ok s1 =>
              rw [he] at h
              simp only [bind, Except.bind, pure, Except.pure, Except.ok.injEq,
                Prod.mk.injEq] at h
              obtain ⟨h1, _⟩ := h
              subst h1; rfl
      | strTok v =>
          rw [htok] at h; dsimp only at h
          cases he : eat .tString s with
          | error e => rw [he] at h; simp [bind, Except.bind] at h
          | ok s1 =>
              rw [he] at h
              simp only [bind, Except.bind, pure, Except.pure, Except.ok.injEq,
                Prod.mk.injEq] at h
              obtain ⟨h1, _⟩ := h
              subst h1; rfl
      | boolTrue =>
          rw [htok] at h; dsimp only at h
          cases he : eat .tTrue s with
          | error e => rw [he] at h; simp [bind, Except.bind] at h
          | ok s1 =>
              rw [he] at h
              simp only [bind, Except.bind, pure, Except.pure, Except.ok.injEq,
                Prod.mk.injEq] at h
              obtain ⟨h1, _⟩ := h
              subst h1; rfl
      | boolFalse =>
          rw [htok] at h; dsimp only at h
          cases he : eat .tFalse s with
          | error e => rw [he] at h; simp [bind, Except.bind] at h
          | ok s1 =>
              rw [he] at h
              simp only [bind, Except.bind, pure, Except.pure, Except.ok.injEq,
                Prod.mk.injEq] at h
              obtain ⟨h1, _⟩ := h
              subst h1; rfl
      | ident name =>
          rw [htok] at h; dsimp only at h
          cases he : eat .tIdent s with
          | error e => rw [he] at h; simp [bind, Except.bind] at h
          | ok s1 =>
              rw [he] at h
              simp only [bind, Except.bind, pure, Except.pure, Except.ok.injEq,
                Prod.mk.injEq] at h
              obtain ⟨h1, _⟩ := h
              subst h1; rfl
      | lparenTok =>
          rw [htok] at h; dsimp only at h
          cases he : eat .tLparen s with
          | error e => rw [he] at h; simp [bind, Except.bind] at h
          | ok s1 =>
              rw [he] at h
              simp only [bind, Except.bind] at h
              cases hp : pe s1 with
              | error e => rw [hp] at h; simp at h
              | ok bs =>
                  rw [hp] at h; dsimp only at h
                  obtain ⟨b, s2⟩ := bs
                  cases he2 : eat .tRparen s2 with
                  | error e => rw [he2] at h; simp at h
                  | ok s3 =>
                      rw [he2] at h
                      simp only [pure, Except.pure, Except.ok.injEq, Prod.mk.injEq] at h
                      obtain ⟨h1, _⟩ := h
                      subst h1
                      exact hpe s1 b s2 hp
      | kwAnd => rw [htok] at h; simp at h
      | kwOr => rw [htok] at h; simp at h
      | kwPrint => rw [htok] at h; simp at h
      | plusTok => rw [htok] at h; simp at h
      | mulTok => rw [htok] at h; simp at h
      | divTok => rw [htok] at h; simp at h
      | rparenTok => rw [htok] at h; simp at h
      | eqTok => rw [htok] at h; simp at h
      | neqTok => rw [htok] at h; simp at h
      | ltTok => rw [htok] at h; simp at h
      | gtTok => rw [htok] at h; simp at h
      | leTok => rw [htok] at h; simp at h
      | geTok => rw [htok] at h; simp at h
      | assignTok => rw [htok] at h; simp at h
      | eofTok => rw [htok] at h; simp at h

/-- Lifting of statement-freeness through one precedence level built from
a sub-parser and `pBinLoop`. -/
theorem pLevel_noStmt (sub : PState → Except Err (Ast × PState))
    (hsub : ∀ s a s', sub s = .ok (a, s') → noStmt a = true)
    (n : Nat) (ops : List TokType) (s : PState) (a : Ast) (s' : PState)
    (h : (do
        let as' ← sub s
        pBinLoop sub n ops as'.1 as'.2 : Except Err (Ast × PState)) = .ok (a, s')) :
    noStmt a = true := by
  cases hs : sub s with
  | error e => rw [hs] at h; simp [bind, Except.bind] at h
  | ok bs =>
      rw [hs] at h
      simp only [bind, Except.bind] at h
      exact pBinLoop_noStmt sub hsub n ops bs.1 bs.2 a s' (hsub s bs.1 bs.2 (by
        rw [hs])) h

/-- `term` only builds statement-free ASTs. -/
theorem term_noStmt (pe : PState → Except Err (Ast × PState))
    (hpe : ∀ s a s', pe s = .ok (a, s') → noStmt a = true)
    (n : Nat) (s : PState) (a : Ast) (s' : PState)
    (h : term pe n s = .ok (a, s')) : noStmt a = true := by
  have hf := factor_noStmt pe hpe n
  exact pLevel_noStmt (factor pe n) (fun s a s' => hf s a s') n [.tMul, .tDiv] s a s' h

/-- `additive` only builds statement-free ASTs. -/
theorem additive_noStmt (pe : PState → Except Err (Ast × PState))
    (hpe : ∀ s a s', pe s = .ok (a, s') → noStmt a = true)
    (n : Nat) (s : PState) (a : Ast) (s' : PState)
    (h : additive pe n s = .ok (a, s')) : noStmt a = true :=
  pLevel_noStmt (term pe n) (term_noStmt pe hpe n) n [.tPlus, .tMinus] s a s' h

/-- `comparison` only builds statement-free ASTs. -/
theorem comparison_noStmt (pe : PState → Except Err (Ast × PState))
    (hpe : ∀ s a s', pe s = .ok (a, s') → noStmt a = true)
    (n : Nat) (s : PState) (a : Ast) (s' : PState)
    (h : comparison pe n s = .ok (a, s')) : noStmt a = true :=
  pLevel_noStmt (additive pe n) (additive_noStmt pe hpe n) n
    [.tLt, .tGt, .tLe, .tGe] s a s' h

/-- `equality` only builds statement-free ASTs. -/
theorem equality_noStmt (pe : PState → Except Err (Ast × PState))
    (hpe : ∀ s a s', pe s = .ok (a, s') → noStmt a = true)
    (n : Nat) (s : PState) (a : Ast) (s' : PState)
    (h : equality pe n s = .ok (a, s')) : noStmt a = true :=
  pLevel_noStmt (comparison pe n) (comparison_noStmt pe hpe n) n
    [.tEq, .tNeq] s a s' h

/-- `logic_and` only builds statement-free ASTs. -/
theorem logic_and_noStmt (pe : PState → Except Err (Ast × PState))
    (hpe : ∀ s a s', pe s = .ok (a, s') → noStmt a = true)
    (n : Nat) (s : PState) (a : Ast) (s' : PState)
    (h : logic_and pe n s = .ok (a, s')) : noStmt a = true :=
  pLevel_noStmt (equality pe n) (equality_noStmt pe hpe n) n [.tAnd] s a s' h

/-- `logic_or` only builds statement-free ASTs. -/
theorem logic_or_noStmt (pe : PState → Except Err (Ast × PState))
    (hpe : ∀ s a s', pe s = .ok (a, s') → noStmt a = true)
    (n : Nat) (s : PState) (a : Ast) (s' : PState)
    (h : logic_or pe n s = .ok (a, s')) : noStmt a = true :=
  pLevel_noStmt (logic_and pe n) (logic_and_noStmt pe hpe n) n [.tOr] s a s' h

/-- `expr` only builds statement-free ASTs: no assignment and no print
node can come out of the expression grammar. -/
theorem expr_noStmt : ∀ (n : Nat) (s : PState) (a : Ast) (s' : PState),
    expr n s = .ok (a, s') → noStmt a = true := by
  intro n
  induction n with
  | zero => intro s a s' h; simp [expr] at h
  | succ n ih =>
      intro s a s' h
      simp only [expr] at h
      exact logic_or_noStmt (expr n) ih n s a s' h

/-- Shape of every AST returned by `Parser.parse`: an assignment or a print
whose body is statement-free, or a statement-free expression. -/
theorem parse_shape (n : Nat) (s : PState) (a : Ast) (s' : PState)
    (h : parse n s = .ok (a, s')) :
    (∃ nm e, a = .assign nm e ∧ noStmt e = true) ∨
    (∃ e, a = .print e ∧ noStmt e = true) ∨ noStmt a = true := by
  unfold parse at h
  cases htok : s.1 <;> rw [htok] at h
  case kwPrint =>
      dsimp only at h
      cases he : eat .tPrint s with
      | error e => rw [he] at h; simp [bind, Except.bind] at h
      | ok s1 =>
          rw [he] at h
          simp only [bind, Except.bind] at h
          cases hx : expr n s1 with
          | error e => rw [hx] at h; simp at h
          | ok bs =>
              rw [hx] at h; dsimp only at h
              obtain ⟨b, s2⟩ := bs
              simp only [pure, Except.pure, Except.ok.injEq, Prod.mk.injEq] at h
              obtain ⟨h1, _⟩ := h
              exact Or.inr (Or.inl ⟨b, h1.symm, expr_noStmt n s1 b s2 hx⟩)
  case ident name =>
      dsimp only at h
      cases he : eat .tIdent s with
      | error e => rw [he] at h; simp [bind, Except.bind] at h
      | ok s1 =>
          rw [he] at h
          simp only [bind, Except.bind] at h
          cases hty : s1.1.type <;> rw [hty] at h
          case tAssign =>
              dsimp only at h
              cases he2 : eat .tAssign s1 with
              | error e => rw [he2] at h; simp [bind, Except.bind] at h
              | ok s2 =>
                  rw [he2] at h
                  simp only [bind, Except.bind] at h
                  cases hx : expr n s2 with
                  | error e => rw [hx] at h; simp at h
                  | ok bs =>
                      rw [hx] at h; dsimp only at h
                      obtain ⟨v, s3⟩ := bs
                      simp only [pure, Except.pure, Except.ok.injEq, Prod.mk.injEq] at h
                      obtain ⟨h1, _⟩ := h
                      exact Or.inl ⟨name, v, h1.symm, expr_noStmt n s2 v s3 hx⟩
          all_goals simp at h
  all_goals
      exact Or.inr (Or.inr (expr_noStmt n s a s' h))

/-- Shape of every AST returned by `parse_line`. -/
theorem parse_line_shape (line : String) (a : Ast)
    (h : parse_line line = .ok a) :
    (∃ nm e, a = .assign nm e ∧ noStmt e = true) ∨
    (∃ e, a = .print e ∧ noStmt e = true) ∨ noStmt a = true := by
  unfold parse_line at h
  cases hg : get_next_token line.data with
  | error e => rw [hg] at h; simp at h
  | ok tr =>
      rw [hg] at h; dsimp only at h
      cases hp : parse (fuel_for line) (tr.1, tr.2) with
      | error e => rw [hp] at h; simp at h
      | ok as' =>
          have hp' : parse (fuel_for line) tr = .ok as' := by
            rw [← hp]
          rw [hp'] at h
          dsimp only at h
          obtain rfl : as'.1 = a := by
            exact (Except.ok.injEq _ _ ▸ h)
          exact parse_shape (fuel_for line) tr as'.1 as'.2 (by
            rw [hp'])

/-- A line whose processing reports an error leaves the environment
untouched and produces exactly that error report: an assignment whose
right-hand side fails commits nothing, and no print output precedes a
failure. -/
theorem process_line_fail (line : String) (env : Env) (e : Err)
    (hfail : OutLine.errorLine line e ∈ (process_line line env).2) :
    process_line line env = (env, [.errorLine line e]) := by
  cases hp : parse_line line with
  | error e' =>
      unfold process_line at hfail ⊢
      rw [hp] at hfail ⊢
      dsimp only at hfail
      simp only [List.mem_singleton, OutLine.errorLine.injEq, true_and] at hfail
      rw [hfail]
  | ok tree =>
      have shape := parse_line_shape line tree hp
      unfold process_line at hfail ⊢
      rw [hp] at hfail ⊢
      dsimp only at hfail ⊢
      rcases shape with ⟨nm, b, rfl, hb⟩ | ⟨b, rfl, hb⟩ | hb
      · obtain ⟨res0, h0⟩ := evaluate_noStmt b env hb
        cases res0 with
        | ok v0 =>
            have hev : evaluate (Ast.assign nm b) env =
                (.ok .vnone, envSet nm v0 env, []) := by
              simp [evaluate, h0]
            rw [hev] at hfail
            simp at hfail
        | error e0 =>
            have hev : evaluate (Ast.assign nm b) env = (.error e0, env, []) := by
              simp [evaluate, h0]
            rw [hev] at hfail ⊢
            dsimp only at hfail ⊢
            simp only [List.map_nil, List.nil_append, List.mem_singleton,
              OutLine.errorLine.injEq, true_and] at hfail
            simp [hfail]
      · obtain ⟨res0, h0⟩ := evaluate_noStmt b env hb
        cases res0 with
        | ok v0 =>
            have hev : evaluate (Ast.print b) env = (.ok .vnone, env, [v0]) := by
              simp [evaluate, h0]
            rw [hev] at hfail
            simp at hfail
        | error e0 =>
            have hev : evaluate (Ast.print b) env = (.error e0, env, []) := by
              simp [evaluate, h0]
            rw [hev] at hfail ⊢
            dsimp only at hfail ⊢
            simp only [List.map_nil, List.nil_append, List.mem_singleton,
              OutLine.errorLine.injEq, true_and] at hfail
            simp [hfail]
      · obtain ⟨res0, h0⟩ := evaluate_noStmt tree env hb
        cases res0 with
        | ok v0 =>
            rw [h0] at hfail
            cases v0 <;> simp at hfail
        | error e0 =>
            rw [h0] at hfail ⊢
            dsimp only at hfail ⊢
            simp only [List.map_nil, List.nil_append, List.mem_singleton,
              OutLine.errorLine.injEq, true_and] at hfail
            simp [hfail]

/-- C1 counterexample: the claim says a line beginning with an identifier
not followed by `=` falls through to ordinary expression parsing; in the
code `Parser.parse` instead raises `Invalid assignment`, so the bare line
`foo` is a parse error, not the string value `"foo"`. -/
theorem c1_counterexample :
    parse_line ("foo") = .error (.invalidAssignment ("foo")) ∧
    process_line ("foo") [] =
      ([], [.errorLine ("foo") (.invalidAssignment ("foo"))]) :=
  ⟨by rfl, by rfl⟩

/-- C1 (amended): whenever the first token of a line is an identifier and
the second token is anything other than `=`, `Parser.parse` takes the
identifier branch and fails with `Invalid assignment` naming that
identifier — it never falls through to `expr`. -/
theorem c1_theorem (line : String) (nm : String) (s1 : List Char)
    (t : Token) (s2 : List Char)
    (h1 : get_next_token line.data = .ok (.ident nm, s1))
    (h2 : get_next_token s1 = .ok (t, s2))
    (h3 : t.type ≠ TokType.tAssign) :
    parse_line line = .error (.invalidAssignment nm) := by
  unfold parse_line
  rw [h1]
  dsimp only
  unfold parse
  dsimp only
  have he : eat .tIdent ((Token.ident nm, s1) : PState) = .ok (t, s2) := by
    simp [eat, Token.type, h2]
  rw [he]
  dsimp only [bind, Except.bind]
  cases ht : t.type
  case tAssign => exact absurd ht h3
  all_goals rfl

/-- C1 witness: the line `x + 5` starts with the identifier `x` followed
by `+`, so it is rejected with `Invalid assignment: x`. -/
theorem c1_witness :
    parse_line ("x + 5") = .error (.invalidAssignment ("x")) :=
  c1_theorem ("x + 5") ("x") ((" + 5").data) Token.plusTok ((" 5").data)
    (by rfl) (by rfl) (by decide)

/-- C2 counterexample: the claim says trailing tokens make `Parser.parse`
fail; in the code the line `1 2` parses successfully to the literal `1`,
silently ignoring the trailing `2`. -/
theorem c2_counterexample : parse_line ("1 2") = .ok (.num 1) := by rfl

/-- C2 (amended): `Parser.parse` never checks that the token stream is
exhausted; for the line `1 2` it returns the AST of the leading expression
and the runner echoes `1 2 = 1.0` from any environment, instead of
reporting a parse error. -/
theorem c2_theorem : ∀ env : Env,
    process_line ("1 2") env = (env, [.echo ("1 2") (.num 1)]) := by
  intro env
  rfl

/-- C3 counterexample: the claim says a String literal evaluates to its
own text in every environment; in the code the string literal `"x"` parses
to a bare string AST node — the very representation of the identifier
`x` — so with `x` bound to 10 it evaluates to 10, not to the string `x`. -/
theorem c3_counterexample :
    parse_line ("\"x\"") = .ok (.str ("x")) ∧
    evaluate (.str ("x")) [(("x"), Value.num 10)] =
      (.ok (.num 10), [(("x"), Value.num 10)], []) ∧
    Value.num 10 ≠ Value.str ("x") :=
  ⟨by rfl, by rfl, by decide⟩

/-- C3 (amended): Number and Boolean literals evaluate to themselves in
every environment; a String literal evaluates to its own text only when
its text is not a key of the environment, and otherwise to the stored
value of that key, because string literals and identifiers share one AST
representation. -/
theorem c3_theorem (env : Env) (q : ℚ) (b : Bool) (s : String) :
    evaluate (.num q) env = (.ok (.num q), env, []) ∧
    evaluate (.bool b) env = (.ok (.bool b), env, []) ∧
    (envLookup s env = none →
      evaluate (.str s) env = (.ok (.str s), env, [])) ∧
    (∀ v, envLookup s env = some v →
      evaluate (.str s) env = (.ok v, env, [])) :=
  ⟨rfl, rfl, fun h => by simp [evaluate, h], fun v h => by simp [evaluate, h]⟩

/-- C3 witness: concrete instances of the amended claim — an unbound
string evaluates to itself, a bound one to the stored value. -/
theorem c3_witness :
    evaluate (.str ("y")) [] = (.ok (.str ("y")), [], []) ∧
    evaluate (.str ("x")) [(("x"), Value.num 10)] =
      (.ok (.num 10), [(("x"), Value.num 10)], []) :=
  ⟨(c3_theorem [] 0 true ("y")).2.2.1 (by rfl),
   (c3_theorem [(("x"), Value.num 10)] 0 true ("x")).2.2.2 (Value.num 10) (by rfl)⟩

/-- C4: a binary node evaluates its left operand, then always its right
operand, before any dispatch on the operator — for every operator string,
including `and`/`or`: when the left succeeds and the right fails, the
right-hand error is the result. Consequently `true or (1/0 == 1)` fails
with DivisionByZero instead of returning true. -/
theorem c4_theorem :
    (∀ (op : String) (l r : Ast) (env : Env) (lv : Value) (env1 : Env)
        (out1 : List Value) (e : Err) (env2 : Env) (out2 : List Value),
      evaluate l env = (.ok lv, env1, out1) →
      evaluate r env1 = (.error e, env2, out2) →
      evaluate (.binop op l r) env = (.error e, env2, out1 ++ out2)) ∧
    process_line ("true or (1/0 == 1)") [] =
      ([], [.errorLine ("true or (1/0 == 1)") .divisionByZero]) := by
  constructor
  · intro op l r env lv env1 out1 e env2 out2 h1 h2
    simp [evaluate, h1, h2]
  · rfl

/-- C4 witness: `or` with a truthy left operand still propagates the
DivisionByZero failure of its right operand. -/
theorem c4_witness :
    evaluate (.binop ("or") (.bool true) (.binop ("/") (.num 1) (.num 0))) [] =
      (.error .divisionByZero, [], []) ∧
    process_line ("true or (1/0 == 1)") [] =
      ([], [.errorLine ("true or (1/0 == 1)") .divisionByZero]) :=
  ⟨c4_theorem.1 ("or") (.bool true) (.binop ("/") (.num 1) (.num 0)) []
      (.bool true) [] [] .divisionByZero [] [] (by rfl) (by rfl),
   c4_theorem.2⟩

/-- C5: on already-evaluated operands, `and` returns the right value when
the left is truthy and the left value otherwise; `or` returns the left
value when it is truthy and the right value otherwise; truthiness is
nonzero for numbers, non-empty for strings, identity for booleans. -/
theorem c5_theorem :
    (∀ l r : Value, applyBin ("and") l r = .ok (if truthy l then r else l)) ∧
    (∀ l r : Value, applyBin ("or") l r = .ok (if truthy l then l else r)) ∧
    (∀ q : ℚ, (truthy (.num q) = true ↔ q ≠ 0)) ∧
    (∀ s : String, (truthy (.str s) = true ↔ s ≠ ("" : String))) ∧
    (∀ b : Bool, truthy (.bool b) = b) :=
  ⟨fun _ _ => rfl, fun _ _ => rfl, fun q => by simp [truthy],
   fun s => by simp [truthy], fun _ => rfl⟩

/-- C6: evaluating a bare-string AST node (the representation of an
identifier) returns the stored value when the name is a key of the
environment, and a String value equal to the name itself otherwise; the
environment and print stream are untouched. -/
theorem c6_theorem (nm : String) (env : Env) :
    evaluate (.str nm) env =
      (.ok (match envLookup nm env with
            | some v => v
            | none => .str nm), env, []) := by
  cases h : envLookup nm env <;> simp [evaluate, h]

/-- C7 counterexample: the claim says arithmetic on a Boolean and a Number
fails with TypeMismatch; in the code Python treats booleans as integers,
so `true + 5` evaluates to 6.0 and the line echoes normally. -/
theorem c7_counterexample :
    parse_line ("true + 5") = .ok (.binop ("+") (.bool true) (.num 5)) ∧
    evaluate (.binop ("+") (.bool true) (.num 5)) [] = (.ok (.num 6), [], []) ∧
    process_line ("true + 5") [] = ([], [.echo ("true + 5") (.num 6)]) :=
  ⟨by rfl, by with_unfolding_all rfl, by with_unfolding_all rfl⟩

/-- C7 (amended): mixing a String with a float Number under `+ - * /`
fails with a TypeMismatch error identifying the operator and the operand
kinds (for `/` only when the divisor is nonzero, since the zero check
fires first) — and every number literal is a float; but a Boolean mixed
with a Number does NOT fail — the Boolean counts as 0 or 1 — boolean
arithmetic yields Integers, and `*` of a String with an Integer or a
Boolean is sequence repetition, so `"a" * (true + true)` echoes `"aa"`. -/
theorem c7_theorem (s : String) (q : ℚ) (b : Bool) (n : ℤ) :
    applyBin ("+") (.str s) (.num q) =
      .error (.typeMismatch ("+") ("String") ("Number")) ∧
    applyBin ("+") (.num q) (.str s) =
      .error (.typeMismatch ("+") ("Number") ("String")) ∧
    applyBin ("-") (.str s) (.num q) =
      .error (.typeMismatch ("-") ("String") ("Number")) ∧
    applyBin ("*") (.str s) (.num q) =
      .error (.typeMismatch ("*") ("String") ("Number")) ∧
    (q ≠ 0 → applyBin ("/") (.str s) (.num q) =
      .error (.typeMismatch ("/") ("String") ("Number"))) ∧
    applyBin ("+") (.bool b) (.num q) = .ok (.num ((if b then 1 else 0) + q)) ∧
    applyBin ("+") (.bool b) (.bool b) =
      .ok (.int ((if b then 1 else 0) + (if b then 1 else 0))) ∧
    applyBin ("*") (.str s) (.int n) = .ok (.str (strRepeat s n)) ∧
    applyBin ("*") (.int n) (.str s) = .ok (.str (strRepeat s n)) ∧
    process_line ("\"a\" * (true + true)") [] =
      ([], [.echo ("\"a\" * (true + true)") (.str ("aa"))]) := by
  refine ⟨rfl, rfl, rfl, rfl, fun hq => ?_, rfl, rfl, rfl, rfl,
    by with_unfolding_all rfl⟩
  simp [applyBin, pyEq, toNum, pyDiv, Value.kind, hq]

/-- C7 witness: concrete instances — string over nonzero number is a
TypeMismatch, boolean plus number succeeds, string times int repeats. -/
theorem c7_witness :
    applyBin ("/") (.str ("a")) (.num 3) =
      .error (.typeMismatch ("/") ("String") ("Number")) ∧
    applyBin ("+") (.bool true) (.num 5) = .ok (.num 6) ∧
    applyBin ("*") (.str ("a")) (.int 2) = .ok (.str ("aa")) :=
  ⟨(c7_theorem ("a") 3 true 2).2.2.2.2.1 (by decide),
   by with_unfolding_all exact (c7_theorem ("a") 5 true 2).2.2.2.2.2.1,
   by with_unfolding_all exact (c7_theorem ("a") 5 true 2).2.2.2.2.2.2.2.1⟩

/-- C8: when the right operand of `/` evaluates to the number 0 the whole
division fails with DivisionByZero whatever the left operand value (the
zero check precedes the division and even precedes any type mismatch);
with a nonzero numeric divisor the numeric quotient is returned; and the
failure is reported at the line boundary while the run continues. -/
theorem c8_theorem :
    (∀ (l r : Ast) (env : Env) (lv : Value) (env1 : Env) (out1 : List Value)
        (env2 : Env) (out2 : List Value),
      evaluate l env = (.ok lv, env1, out1) →
      evaluate r env1 = (.ok (.num 0), env2, out2) →
      evaluate (.binop ("/") l r) env =
        (.error .divisionByZero, env2, out1 ++ out2)) ∧
    (∀ a b : ℚ, b ≠ 0 → applyBin ("/") (.num a) (.num b) = .ok (.num (a / b))) ∧
    (∀ lv : Value, applyBin ("/") lv (.num 0) = .error .divisionByZero) ∧
    run_file [("5 / 0"), ("1 + 1")] [] =
      ([], [.errorLine ("5 / 0") .divisionByZero, .echo ("1 + 1") (.num 2)]) := by
  refine ⟨?_, ?_, fun lv => rfl, by with_unfolding_all rfl⟩
  · intro l r env lv env1 out1 env2 out2 h1 h2
    have ha : applyBin ("/") lv (.num 0) = .error .divisionByZero := rfl
    simp [evaluate, h1, h2, ha]
  · intro a b hb
    simp [applyBin, pyEq, toNum, pyDiv, hb]

/-- C8 witness: `5 / 0` fails with DivisionByZero, `1 / 2` divides. -/
theorem c8_witness :
    evaluate (.binop ("/") (.num 5) (.num 0)) [] =
      (.error .divisionByZero, [], []) ∧
    applyBin ("/") (.num 1) (.num 2) = .ok (.num (1 / 2)) :=
  ⟨c8_theorem.1 (.num 5) (.num 0) [] (.num 5) [] [] [] [] (by rfl) (by rfl),
   c8_theorem.2.1 1 2 (by decide)⟩

/-- C9: a line whose lexing, parsing or evaluation fails leaves the
environment exactly as it was, contributes exactly the error report as its
output, and the run continues with the following lines processed from that
unchanged environment — no error is fatal. -/
theorem c9_theorem (line : String) (ls : List String) (env : Env) (e : Err)
    (hfail : OutLine.errorLine line e ∈ (process_line line env).2)
    (htrim : strip line = line) (hne : ¬ line = ("" : String)) :
    process_line line env = (env, [.errorLine line e]) ∧
    run_file (line :: ls) env =
      ((run_file ls env).1, .errorLine line e :: (run_file ls env).2) := by
  have h1 := process_line_fail line env e hfail
  refine ⟨h1, ?_⟩
  simp only [run_file]
  rw [htrim, if_neg hne, h1]
  rcases hr : run_file ls env with ⟨env2, os⟩
  simp [hr]

/-- C9 witness: the failing line `5 / 0` leaves the empty environment
empty, reports DivisionByZero, and the run still processes `1 + 1`. -/
theorem c9_witness :
    process_line ("5 / 0") [] = ([], [.errorLine ("5 / 0") .divisionByZero]) ∧
    run_file [("5 / 0"), ("1 + 1")] [] =
      ((run_file [("1 + 1")] []).1,
        .errorLine ("5 / 0") .divisionByZero :: (run_file [("1 + 1")] []).2) :=
  c9_theorem ("5 / 0") [("1 + 1")] [] .divisionByZero (by decide) (by rfl)
    (by decide)

/-- C10: dividing by a right operand that evaluates to the Boolean false
raises DivisionByZero for every left operand value, because the
divisor-is-zero check is the Python equality `rval == 0`, which holds for
`False`, and it runs before any type consideration. -/
theorem c10_theorem :
    (∀ lv : Value, applyBin ("/") lv (.bool false) = .error .divisionByZero) ∧
    (∀ (l r : Ast) (env : Env) (lv : Value) (env1 : Env) (out1 : List Value)
        (env2 : Env) (out2 : List Value),
      evaluate l env = (.ok lv, env1, out1) →
      evaluate r env1 = (.ok (.bool false), env2, out2) →
      evaluate (.binop ("/") l r) env =
        (.error .divisionByZero, env2, out1 ++ out2)) ∧
    process_line ("5 / false") [] =
      ([], [.errorLine ("5 / false") .divisionByZero]) := by
  refine ⟨fun lv => rfl, ?_, by rfl⟩
  intro l r env lv env1 out1 env2 out2 h1 h2
  have ha : applyBin ("/") lv (.bool false) = .error .divisionByZero := rfl
  simp [evaluate, h1, h2, ha]

/-- C10 witness: `5 / false` is DivisionByZero. -/
theorem c10_witness :
    evaluate (.binop ("/") (.num 5) (.bool false)) [] =
      (.error .divisionByZero, [], []) :=
  c10_theorem.2.1 (.num 5) (.bool false) [] (.num 5) [] [] [] []
    (by rfl) (by rfl)

end Interp
